import Mathlib

/-!
Verification development for the jobmatch-agent pipeline
(`src/agent.py`): LLM-boundary JSON handling, the structured extraction
of job-description and resume records, the deterministic match scorer
`_compute_match`, and the orchestrator `run_jobmatch_agent`.

The scorer's arithmetic is CPython float arithmetic on IEEE-754 binary64
values.  Every float arising in `_compute_match` is an exact rational, so
the embedding represents doubles as rationals and models each float
operation as the exact operation followed by `RN`, round-to-nearest with
ties to even at 53 bits of precision (with the subnormal range below
`2 ^ (-1022)` rounded at fixed scale `2 ^ (-1074)`; the program's values
stay far below the overflow threshold, so no overflow case is modelled).
Python strings are modelled as Lean `String`; `str.lower` is modelled on
the ASCII range (the character data exercised by the claims), and string
comparison is code-point lexicographic in both languages.
-/

/-! ## Python string primitives -/

/-- Code-point lexicographic `≤` on character lists, as used by Python's
`sorted` on `str` values (Python compares strings by code point). -/
def lexLE : List Char → List Char → Bool
  | [], _ => true
  | _ :: _, [] => false
  | a :: as, b :: bs =>
    if a.toNat < b.toNat then true
    else if b.toNat < a.toNat then false
    else lexLE as bs

/-- Lexicographic `≤` on strings (Python `<=` on `str`). -/
def strLE (a b : String) : Prop := lexLE a.data b.data = true

instance : DecidableRel strLE := fun a b => by unfold strLE; infer_instance

/-- Python `str.lower()`, modelled per character on the ASCII range
(`Char.toLower` maps `A..Z` to `a..z` and fixes everything else). -/
def pyLower (s : String) : String := ⟨s.data.map Char.toLower⟩

/-- Python whitespace recognised by `str.strip()` (ASCII range). -/
def isPyWs (c : Char) : Bool :=
  c == ' ' || c == '\t' || c == '\n' || c == '\r' || c == '\x0b' || c == '\x0c'

/-- Python `str.strip()`: drop leading and trailing whitespace. -/
def pyStrip (s : String) : String :=
  ⟨((s.data.dropWhile isPyWs).reverse.dropWhile isPyWs).reverse⟩

/-- Python `sorted` on a collection of strings: ascending code-point
lexicographic order. -/
def pySorted (l : List String) : List String := l.insertionSort strLE

/-! ## Data structures (`src/agent.py` lines 20-36) -/

/-- The `JDInfo` dataclass of `agent.py`. -/
structure JDInfo where
  title : String
  company : String
  location : String
  required_skills : List String
  nice_to_have_skills : List String
  responsibilities : List String
  keywords : List String
deriving DecidableEq

/-- The `ResumeInfo` dataclass of `agent.py`. -/
structure ResumeInfo where
  name : String
  headline : String
  skills : List String
  tools : List String
deriving DecidableEq

/-- The dictionary returned by `_compute_match` (`agent.py` lines 180-188),
with its seven keys as fields. -/
structure MatchResult where
  overall_score : ℤ
  required_match_fraction : ℚ
  nice_to_have_match_fraction : ℚ
  matched_required_skills : List String
  missing_required_skills : List String
  matched_nice_to_have : List String
  missing_nice_to_have : List String
deriving DecidableEq

/-! ## IEEE-754 binary64 model over ℚ -/

/-- Round a rational to the nearest integer, ties to even (the rounding of
CPython's `round` on a float, applied to the float's exact value). -/
def roundHE (q : ℚ) : ℤ :=
  if q - ⌊q⌋ < 1/2 then ⌊q⌋
  else if 1/2 < q - ⌊q⌋ then ⌊q⌋ + 1
  else if 2 ∣ ⌊q⌋ then ⌊q⌋ else ⌊q⌋ + 1

/-- Round a nonnegative rational to the nearest IEEE-754 binary64 value
(round to nearest, ties to even).  For `q` at least the smallest normal
value `2 ^ (-1022)` the significand is scaled to `[2 ^ 52, 2 ^ 53)` and
rounded; below that the subnormal grid of spacing `2 ^ (-1074)` is used.
The pipeline only produces nonnegative values well below overflow, so
negative inputs are clamped to `0` and no overflow case exists. -/
def RN (q : ℚ) : ℚ :=
  if q ≤ 0 then 0
  else if q < (2:ℚ) ^ (-1022 : ℤ) then
    (roundHE (q * (2:ℚ) ^ (1074 : ℤ)) : ℚ) * (2:ℚ) ^ (-1074 : ℤ)
  else
    (roundHE (q * (2:ℚ) ^ ((52 : ℤ) - Int.log 2 q)) : ℚ) *
      (2:ℚ) ^ (Int.log 2 q - 52)

/-- The binary64 value of the literal `0.7` in `agent.py` line 178. -/
def D07 : ℚ := RN (7/10)

/-- The binary64 value of the literal `0.3` in `agent.py` line 178. -/
def D03 : ℚ := RN (3/10)

/-- CPython `round(x)` on a float `x`: nearest integer, ties to even,
computed on the exact value of `x`. -/
def pyRound : ℚ → ℤ := roundHE

/-- CPython `round(x, 3)` on a float `x`: the float nearest to the value
of `x` correctly rounded (ties to even) to three decimal digits. -/
def round3 (q : ℚ) : ℚ := RN ((roundHE (q * 1000) : ℚ) / 1000)

/-! ## The match scorer (`_compute_match`, `agent.py` lines 160-188) -/

/-- Line 165: `resume_skillset = {s.lower() for s in (resume.skills + resume.tools)}`.
The set is modelled as a duplicate-free list. -/
def resume_skillset (resume : ResumeInfo) : List String :=
  ((resume.skills ++ resume.tools).map pyLower).dedup

/-- Line 166: `required = {s.lower() for s in jd.required_skills}`. -/
def required_set (jd : JDInfo) : List String :=
  (jd.required_skills.map pyLower).dedup

/-- Line 167: `nice = {s.lower() for s in jd.nice_to_have_skills}`. -/
def nice_set (jd : JDInfo) : List String :=
  (jd.nice_to_have_skills.map pyLower).dedup

/-- Line 169: `matched_required = sorted(required & resume_skillset)`. -/
def matched_required (jd : JDInfo) (resume : ResumeInfo) : List String :=
  pySorted ((required_set jd).filter (fun s => decide (s ∈ resume_skillset resume)))

/-- Line 170: `missing_required = sorted(required - resume_skillset)`. -/
def missing_required (jd : JDInfo) (resume : ResumeInfo) : List String :=
  pySorted ((required_set jd).filter (fun s => decide (s ∉ resume_skillset resume)))

/-- Line 171: `matched_nice = sorted(nice & resume_skillset)`. -/
def matched_nice (jd : JDInfo) (resume : ResumeInfo) : List String :=
  pySorted ((nice_set jd).filter (fun s => decide (s ∈ resume_skillset resume)))

/-- Line 172: `missing_nice = sorted(nice - resume_skillset)`. -/
def missing_nice (jd : JDInfo) (resume : ResumeInfo) : List String :=
  pySorted ((nice_set jd).filter (fun s => decide (s ∉ resume_skillset resume)))

/-- Line 175: `required_score = len(matched_required) / len(required) if required else 1.0`
(float division of the two integers is one correctly rounded operation). -/
def required_score (jd : JDInfo) (resume : ResumeInfo) : ℚ :=
  if required_set jd = [] then 1
  else RN (((matched_required jd resume).length : ℚ) / ((required_set jd).length : ℚ))

/-- Line 176: `nice_score = len(matched_nice) / len(nice) if nice else 1.0`. -/
def nice_score (jd : JDInfo) (resume : ResumeInfo) : ℚ :=
  if nice_set jd = [] then 1
  else RN (((matched_nice jd resume).length : ℚ) / ((nice_set jd).length : ℚ))

/-- The float value of `(required_score * 0.7 + nice_score * 0.3) * 100`
(line 178), with each float operation individually rounded. -/
def overall_raw (jd : JDInfo) (resume : ResumeInfo) : ℚ :=
  RN (RN (RN (required_score jd resume * D07) + RN (nice_score jd resume * D03)) * 100)

/-- Line 178: `overall_score = round((required_score * 0.7 + nice_score * 0.3) * 100)`. -/
def overall_score (jd : JDInfo) (resume : ResumeInfo) : ℤ :=
  pyRound (overall_raw jd resume)

/-- Lines 180-188: the result dictionary of `_compute_match`, with the two
fractions rounded to three decimals for reporting (lines 182-183). -/
def _compute_match (jd : JDInfo) (resume : ResumeInfo) : MatchResult where
  overall_score := overall_score jd resume
  required_match_fraction := round3 (required_score jd resume)
  nice_to_have_match_fraction := round3 (nice_score jd resume)
  matched_required_skills := matched_required jd resume
  missing_required_skills := missing_required jd resume
  matched_nice_to_have := matched_nice jd resume
  missing_nice_to_have := missing_nice jd resume

/-! ## JSON values and the parse boundary (`_call_llm_json`, lines 41-54) -/

/-- A parsed JSON value, as produced by Python's `json.loads`.  Numbers are
kept as exact rationals (no claim depends on numeric values). -/
inductive Json where
  | null
  | bool (b : Bool)
  | num (v : ℚ)
  | str (s : String)
  | arr (elems : List Json)
  | obj (fields : List (String × Json))

/-- The Python exceptions that the modelled code can raise. -/
inductive PyError where
  | jsonDecodeError
  | attributeError
  | typeError
deriving DecidableEq

/-- JSON whitespace skipping (space, tab, newline, carriage return). -/
def skipWs : List Char → List Char
  | [] => []
  | c :: cs =>
    if c == ' ' || c == '\t' || c == '\n' || c == '\r' then skipWs cs else c :: cs

/-- Value of a decimal digit character, if it is one. -/
def digitVal (c : Char) : Option Nat :=
  if 48 ≤ c.toNat && c.toNat ≤ 57 then some (c.toNat - 48) else none

/-- Split a leading run of decimal digits from the input. -/
def takeDigits : List Char → (List Nat × List Char)
  | [] => ([], [])
  | c :: cs =>
    match digitVal c with
    | some d => let p := takeDigits cs; (d :: p.1, p.2)
    | none => ([], c :: cs)

/-- The natural number denoted by a digit run. -/
def natOfDigits (ds : List Nat) : Nat := ds.foldl (fun a d => a * 10 + d) 0

/-- Value of a hexadecimal digit character, if it is one. -/
def hexVal (c : Char) : Option Nat :=
  if 48 ≤ c.toNat && c.toNat ≤ 57 then some (c.toNat - 48)
  else if 97 ≤ c.toNat && c.toNat ≤ 102 then some (c.toNat - 87)
  else if 65 ≤ c.toNat && c.toNat ≤ 70 then some (c.toNat - 55)
  else none

/-- Parse the body of a JSON string after the opening quote, handling the
escape sequences of the JSON grammar (`\uXXXX` only for non-surrogate code
points; control characters are rejected as in Python). -/
def parseStringBody : Nat → List Char → Option (List Char × List Char)
  | 0, _ => none
  | _ + 1, [] => none
  | fuel + 1, c :: cs =>
    if c == '"' then some ([], cs)
    else if c == '\\' then
      match cs with
      | [] => none
      | e :: cs2 =>
        let esc : Option (Char × List Char) :=
          if e == '"' then some ('"', cs2)
          else if e == '\\' then some ('\\', cs2)
          else if e == '/' then some ('/', cs2)
          else if e == 'b' then some ('\x08', cs2)
          else if e == 'f' then some ('\x0c', cs2)
          else if e == 'n' then some ('\n', cs2)
          else if e == 'r' then some ('\r', cs2)
          else if e == 't' then some ('\t', cs2)
          else if e == 'u' then
            match cs2 with
            | h1 :: h2 :: h3 :: h4 :: cs3 =>
              match hexVal h1, hexVal h2, hexVal h3, hexVal h4 with
              | some a, some b, some c', some d =>
                let n := ((a * 16 + b) * 16 + c') * 16 + d
                if 0xd800 ≤ n && n ≤ 0xdfff then none
                else some (Char.ofNat n, cs3)
              | _, _, _, _ => none
            | _ => none
          else none
        match esc with
        | some (ch, rest) =>
          match parseStringBody fuel rest with
          | some (body, rest2) => some (ch :: body, rest2)
          | none => none
        | none => none
    else if c.toNat < 32 then none
    else
      match parseStringBody fuel cs with
      | some (body, rest2) => some (c :: body, rest2)
      | none => none

/-- Parse a JSON number (optional sign, digits, optional fraction and
exponent), returning its exact rational value. -/
def parseNumber (cs0 : List Char) : Option (ℚ × List Char) :=
  let signAndRest : (Bool × List Char) :=
    match cs0 with
    | '-' :: r => (true, r)
    | _ => (false, cs0)
  match takeDigits signAndRest.2 with
  | ([], _) => none
  | (ds, cs2) =>
    let ip : ℚ := (natOfDigits ds : ℚ)
    let fracAndRest : Option (ℚ × List Char) :=
      match cs2 with
      | '.' :: r =>
        match takeDigits r with
        | ([], _) => none
        | (fs, cs3) =>
          some ((natOfDigits fs : ℚ) / ((10 : ℚ) ^ fs.length), cs3)
      | _ => some (0, cs2)
    match fracAndRest with
    | none => none
    | some (fr, cs3) =>
      let expAndRest : Option (ℚ × List Char) :=
        match cs3 with
        | e :: r =>
          if e == 'e' || e == 'E' then
            let sgnRest : (Bool × List Char) :=
              match r with
              | '-' :: r2 => (true, r2)
              | '+' :: r2 => (false, r2)
              | _ => (false, r)
            match takeDigits sgnRest.2 with
            | ([], _) => none
            | (es, cs4) =>
              let ex : ℤ := if sgnRest.1 then -(natOfDigits es : ℤ) else (natOfDigits es : ℤ)
              some ((10 : ℚ) ^ ex, cs4)
          else some (1, cs3)
        | [] => some (1, cs3)
      match expAndRest with
      | none => none
      | some (scale, cs4) =>
        let mag := (ip + fr) * scale
        some (if signAndRest.1 then -mag else mag, cs4)

mutual

/-- Recursive-descent parser for a JSON value, mirroring the grammar
accepted by Python's `json.loads`.  The fuel argument strictly exceeds the
remaining input length, so it never runs out on a well-formed call. -/
def parseValue : Nat → List Char → Option (Json × List Char)
  | 0, _ => none
  | _ + 1, [] => none
  | fuel + 1, c :: cs =>
    if c == '{' then parseObjRest fuel (skipWs cs) true
    else if c == '[' then parseArrRest fuel (skipWs cs) true
    else if c == '"' then
      match parseStringBody (cs.length + 1) cs with
      | some (body, rest) => some (.str ⟨body⟩, rest)
      | none => none
    else if c == 't' then
      match cs with
      | 'r' :: 'u' :: 'e' :: rest => some (.bool true, rest)
      | _ => none
    else if c == 'f' then
      match cs with
      | 'a' :: 'l' :: 's' :: 'e' :: rest => some (.bool false, rest)
      | _ => none
    else if c == 'n' then
      match cs with
      | 'u' :: 'l' :: 'l' :: rest => some (.null, rest)
      | _ => none
    else
      match parseNumber (c :: cs) with
      | some (q, rest) => some (.num q, rest)
      | none => none

/-- Parse the remainder of a JSON array after `[` (`first` is true before
the first element). -/
def parseArrRest : Nat → List Char → Bool → Option (Json × List Char)
  | 0, _, _ => none
  | _ + 1, [], _ => none
  | fuel + 1, c :: cs, first =>
    if first && c == ']' then some (.arr [], cs)
    else
      match parseValue fuel (skipWs (c :: cs)) with
      | none => none
      | some (v, rest) =>
        match skipWs rest with
        | ']' :: rest2 => some (.arr [v], rest2)
        | ',' :: rest2 =>
          match parseArrRest fuel (skipWs rest2) false with
          | some (.arr vs, rest3) => some (.arr (v :: vs), rest3)
          | _ => none
        | _ => none

/-- Parse the remainder of a JSON object after an opening brace. -/
def parseObjRest : Nat → List Char → Bool → Option (Json × List Char)
  | 0, _, _ => none
  | _ + 1, [], _ => none
  | fuel + 1, c :: cs, first =>
    if first && c == '}' then some (.obj [], cs)
    else if c == '"' then
      match parseStringBody (cs.length + 1) cs with
      | none => none
      | some (key, rest) =>
        match skipWs rest with
        | ':' :: rest2 =>
          match parseValue fuel (skipWs rest2) with
          | none => none
          | some (v, rest3) =>
            match skipWs rest3 with
            | '}' :: rest4 => some (.obj [(⟨key⟩, v)], rest4)
            | ',' :: rest4 =>
              match parseObjRest fuel (skipWs rest4) false with
              | some (.obj ps, rest5) => some (.obj ((⟨key⟩, v) :: ps), rest5)
              | _ => none
            | _ => none
        | _ => none
    else none

end

/-- Python's `json.loads`: parse one JSON document and require the rest of
the input to be whitespace; any failure is a `json.JSONDecodeError`. -/
def json_loads (s : String) : Except PyError Json :=
  match parseValue (s.data.length + 1) (skipWs s.data) with
  | some (v, rest) =>
    match skipWs rest with
    | [] => .ok v
    | _ => .error .jsonDecodeError
  | none => .error .jsonDecodeError

/-- Lines 53-54 of `_call_llm_json`: the response body `content` delivered
by the external completion service is parsed with `json.loads`; the
network call itself (lines 45-52) is the external boundary, so the
function is modelled on the returned body. -/
def _call_llm_json (content : String) : Except PyError Json :=
  json_loads content

/-! ## Field extraction (`_extract_jd_info` lines 104-114,
`_extract_resume_info` lines 149-156) -/

/-- Lookup in a Python dict built by `json.loads` from a pair list: a later
binding of the same key overrides an earlier one. -/
def lookupLast (fields : List (String × Json)) (k : String) : Option Json :=
  match fields with
  | [] => none
  | (k', v) :: rest =>
    match lookupLast rest k with
    | some r => some r
    | none => if k' == k then some v else none

/-- Python `data.get(k, dflt)`: total on dicts, `AttributeError` when
`data` is not a dict (a JSON document need not be an object). -/
def pyDictGet (data : Json) (k : String) (dflt : Json) : Except PyError Json :=
  match data with
  | .obj fields => .ok ((lookupLast fields k).getD dflt)
  | _ => .error .attributeError

/-- Python `x.strip()`: defined on strings, `AttributeError` otherwise. -/
def pyStripAttr : Json → Except PyError String
  | .str s => .ok (pyStrip s)
  | _ => .error .attributeError

/-- Python iteration over a JSON value: lists yield their elements,
strings their characters, dicts their keys; other values raise
`TypeError`. -/
def pyIter : Json → Except PyError (List Json)
  | .arr xs => .ok xs
  | .str s => .ok (s.data.map fun c => .str ⟨[c]⟩)
  | .obj fields => .ok (fields.map fun p => .str p.1)
  | _ => .error .typeError

/-- Left-to-right body of the comprehension `[s.strip() for s in xs]`. -/
def pyStripList : List Json → Except PyError (List String)
  | [] => .ok []
  | j :: rest => do
    let s ← pyStripAttr j
    let l ← pyStripList rest
    pure (s :: l)

/-- The comprehension `[s.strip() for s in v]` over a JSON value. -/
def stripComprehension (v : Json) : Except PyError (List String) := do
  pyStripList (← pyIter v)

/-- Lines 106-114: build the `JDInfo` record from the parsed JSON mapping,
reading every key with a default (`""` or `[]`) and stripping each string,
in the evaluation order of the Python constructor call. -/
def _extract_jd_fields (data : Json) : Except PyError JDInfo := do
  let title ← pyDictGet data "title" (.str "") >>= pyStripAttr
  let company ← pyDictGet data "company" (.str "") >>= pyStripAttr
  let location ← pyDictGet data "location" (.str "") >>= pyStripAttr
  let required_skills ← pyDictGet data "required_skills" (.arr []) >>= stripComprehension
  let nice_to_have_skills ← pyDictGet data "nice_to_have_skills" (.arr []) >>= stripComprehension
  let responsibilities ← pyDictGet data "responsibilities" (.arr []) >>= stripComprehension
  let keywords ← pyDictGet data "keywords" (.arr []) >>= stripComprehension
  pure ⟨title, company, location, required_skills, nice_to_have_skills,
        responsibilities, keywords⟩

/-- Lines 151-156: build the `ResumeInfo` record from the parsed JSON
mapping, with the same defaulting and stripping contract. -/
def _extract_resume_fields (data : Json) : Except PyError ResumeInfo := do
  let name ← pyDictGet data "name" (.str "") >>= pyStripAttr
  let headline ← pyDictGet data "headline" (.str "") >>= pyStripAttr
  let skills ← pyDictGet data "skills" (.arr []) >>= stripComprehension
  let tools ← pyDictGet data "tools" (.arr []) >>= stripComprehension
  pure ⟨name, headline, skills, tools⟩

/-- Lines 57-114, on the response body returned by the completion service
for the JD prompt: parse it and build the record. -/
def _extract_jd_info (content : String) : Except PyError JDInfo :=
  _call_llm_json content >>= _extract_jd_fields

/-- Lines 117-156, on the response body for the resume prompt. -/
def _extract_resume_info (content : String) : Except PyError ResumeInfo :=
  _call_llm_json content >>= _extract_resume_fields

/-- Lines 191-248 (`_generate_advice`): the advice call returns the parsed
JSON mapping as-is with no post-validation. -/
def _generate_advice (content : String) : Except PyError Json :=
  _call_llm_json content

/-! ## The orchestrator (`run_jobmatch_agent`, lines 253-272) -/

/-- The three external completion calls made by one pipeline run. -/
inductive LlmCall where
  | jdExtract
  | resumeExtract
  | advice
deriving DecidableEq

/-- Lines 262-272: sequential pipeline on the three response bodies the
external service would return for the three prompts.  The result pairs the
Python return value (the dict with keys jd, resume, match, advice — or the
uncaught exception) with the list of completion calls actually issued
before returning, in order. -/
def run_jobmatch_agent (jdContent resumeContent adviceContent : String) :
    Except PyError (JDInfo × ResumeInfo × MatchResult × Json) × List LlmCall :=
  match _extract_jd_info jdContent with
  | .error e => (.error e, [.jdExtract])
  | .ok jd_info =>
    match _extract_resume_info resumeContent with
    | .error e => (.error e, [.jdExtract, .resumeExtract])
    | .ok resume_info =>
      let match_info := _compute_match jd_info resume_info
      match _generate_advice adviceContent with
      | .error e => (.error e, [.jdExtract, .resumeExtract, .advice])
      | .ok advice =>
        (.ok (jd_info, resume_info, match_info, advice),
         [.jdExtract, .resumeExtract, .advice])


/-! ## Lemmas about the rounding model -/

/-- Floor evaluation from explicit bounds. -/
theorem floor_eq_of {q : ℚ} {n : ℤ} (h1 : (n:ℚ) ≤ q) (h2 : q < (n:ℚ) + 1) :
    ⌊q⌋ = n :=
  Int.floor_eq_iff.mpr ⟨h1, h2⟩

/-- Integers round to themselves. -/
theorem roundHE_intCast (n : ℤ) : roundHE (n:ℚ) = n := by
  unfold roundHE
  rw [Int.floor_intCast, if_pos (by norm_num)]

/-- Evaluation of `roundHE` below the midpoint. -/
theorem roundHE_eq_lo {q : ℚ} {n : ℤ} (h1 : (n:ℚ) ≤ q) (h2 : q < (n:ℚ) + 1/2) :
    roundHE q = n := by
  have hf : ⌊q⌋ = n := floor_eq_of h1 (by linarith)
  unfold roundHE
  rw [hf, if_pos (by linarith)]

/-- Evaluation of `roundHE` above the midpoint. -/
theorem roundHE_eq_hi {q : ℚ} {n : ℤ} (h1 : (n:ℚ) + 1/2 < q) (h2 : q < (n:ℚ) + 1) :
    roundHE q = n + 1 := by
  have hf : ⌊q⌋ = n := floor_eq_of (by linarith) h2
  unfold roundHE
  rw [hf, if_neg (by linarith), if_pos (by linarith)]

/-- Evaluation of `roundHE` at a midpoint with even floor. -/
theorem roundHE_eq_tie_even {q : ℚ} {n : ℤ} (h : q = (n:ℚ) + 1/2) (hn : 2 ∣ n) :
    roundHE q = n := by
  have hf : ⌊q⌋ = n := floor_eq_of (by linarith) (by linarith)
  unfold roundHE
  rw [hf, if_neg (by linarith), if_neg (by linarith), if_pos hn]

/-- Evaluation of `roundHE` at a midpoint with odd floor. -/
theorem roundHE_eq_tie_odd {q : ℚ} {n : ℤ} (h : q = (n:ℚ) + 1/2) (hn : ¬ 2 ∣ n) :
    roundHE q = n + 1 := by
  have hf : ⌊q⌋ = n := floor_eq_of (by linarith) (by linarith)
  unfold roundHE
  rw [hf, if_neg (by linarith), if_neg (by linarith), if_neg hn]

/-- The rounded value is at least the floor. -/
theorem floor_le_roundHE (q : ℚ) : ⌊q⌋ ≤ roundHE q := by
  unfold roundHE
  split_ifs <;> omega

/-- The rounded value is at most the floor plus one. -/
theorem roundHE_le_floor_add_one (q : ℚ) : roundHE q ≤ ⌊q⌋ + 1 := by
  unfold roundHE
  split_ifs <;> omega

/-- Nonnegative rationals round to nonnegative integers. -/
theorem roundHE_nonneg {q : ℚ} (h : 0 ≤ q) : 0 ≤ roundHE q :=
  le_trans (Int.floor_nonneg.mpr h) (floor_le_roundHE q)

/-- Round-half-even is monotone. -/
theorem roundHE_mono {a b : ℚ} (hab : a ≤ b) : roundHE a ≤ roundHE b := by
  rcases lt_or_le ⌊a⌋ ⌊b⌋ with hf | hf
  · exact le_trans (roundHE_le_floor_add_one a) (le_trans (by omega) (floor_le_roundHE b))
  · have hfe : ⌊a⌋ = ⌊b⌋ := le_antisymm (Int.floor_le_floor hab) hf
    have hda : (⌊a⌋ : ℚ) ≤ a := Int.floor_le a
    have hdb : b - ⌊b⌋ ≥ a - ⌊a⌋ := by rw [hfe] at *; linarith
    unfold roundHE
    rw [hfe]
    split_ifs with c1 c2 c3 c4 c4 c5 c5 c6 <;> first
      | omega
      | (exfalso; linarith)

/-- Characterisation of `Int.log 2` from explicit power bounds. -/
theorem intLog_eq {q : ℚ} {e : ℤ} (h1 : (2:ℚ)^e ≤ q) (h2 : q < (2:ℚ)^(e+1)) :
    Int.log 2 q = e := by
  have hq : 0 < q := lt_of_lt_of_le (by positivity) h1
  have hcast : ((2:ℕ):ℚ) = (2:ℚ) := by norm_num
  have ha := (Int.zpow_le_iff_le_log (b := 2) (by norm_num) hq).mp (by rw [hcast]; exact h1)
  have hb := (Int.lt_zpow_iff_log_lt (b := 2) (by norm_num) hq).mp (by rw [hcast]; exact h2)
  omega

/-- Evaluation of `RN` in the normal range from an exponent bracket and
the rounding of the scaled significand. -/
theorem RN_eq_of {q : ℚ} {e m : ℤ} (he : -1022 ≤ e)
    (h1 : (2:ℚ)^e ≤ q) (h2 : q < (2:ℚ)^(e+1))
    (hm : roundHE (q * (2:ℚ)^((52:ℤ) - e)) = m) :
    RN q = (m:ℚ) * (2:ℚ)^(e - 52) := by
  have hq : 0 < q := lt_of_lt_of_le (by positivity) h1
  have hlog : Int.log 2 q = e := intLog_eq h1 h2
  have hmin : (2:ℚ)^(-1022:ℤ) ≤ q :=
    le_trans (zpow_le_zpow_right₀ (by norm_num) he) h1
  unfold RN
  rw [if_neg (not_le.mpr hq), if_neg (not_lt.mpr hmin), hlog, hm]

/-- Zero rounds to zero. -/
theorem RN_zero : RN 0 = 0 := by unfold RN; norm_num


/-- Rounding to binary64 never produces a negative value. -/
theorem RN_nonneg (q : ℚ) : 0 ≤ RN q := by
  unfold RN
  split_ifs with h1 h2
  · exact le_refl 0
  · have : (0:ℚ) ≤ q * (2:ℚ)^(1074:ℤ) := by
      have := not_le.mp h1
      positivity
    have hr := roundHE_nonneg this
    positivity
  · have hq : 0 < q := not_le.mp h1
    have : (0:ℚ) ≤ q * (2:ℚ)^((52:ℤ) - Int.log 2 q) := by positivity
    have hr := roundHE_nonneg this
    positivity

/-- In the normal range the scaled significand is at least `2 ^ 52`. -/
theorem scaled_lb {q : ℚ} (hq : 0 < q) :
    (2:ℚ)^(52:ℤ) ≤ q * (2:ℚ)^((52:ℤ) - Int.log 2 q) := by
  have hcast : ((2:ℕ):ℚ) = (2:ℚ) := by norm_num
  have h := Int.zpow_log_le_self (b := 2) (r := q) (by norm_num) hq
  rw [hcast] at h
  calc (2:ℚ)^(52:ℤ) = (2:ℚ)^(Int.log 2 q) * (2:ℚ)^((52:ℤ) - Int.log 2 q) := by
        rw [← zpow_add₀ (by norm_num : (2:ℚ) ≠ 0)]; ring_nf
    _ ≤ q * (2:ℚ)^((52:ℤ) - Int.log 2 q) :=
        mul_le_mul_of_nonneg_right h (by positivity)

/-- In the normal range the scaled significand is below `2 ^ 53`. -/
theorem scaled_ub {q : ℚ} (_hq : 0 < q) :
    q * (2:ℚ)^((52:ℤ) - Int.log 2 q) < (2:ℚ)^(53:ℤ) := by
  have hcast : ((2:ℕ):ℚ) = (2:ℚ) := by norm_num
  have h := Int.lt_zpow_succ_log_self (b := 2) (r := q) (by norm_num)
  rw [hcast] at h
  calc q * (2:ℚ)^((52:ℤ) - Int.log 2 q)
      < (2:ℚ)^(Int.log 2 q + 1) * (2:ℚ)^((52:ℤ) - Int.log 2 q) :=
        mul_lt_mul_of_pos_right h (by positivity)
    _ = (2:ℚ)^(53:ℤ) := by rw [← zpow_add₀ (by norm_num : (2:ℚ) ≠ 0)]; ring_nf

/-- A normal-range value rounds to at least `2 ^ (Int.log 2 q)`. -/
theorem RN_normal_lower {q : ℚ} (hq : 0 < q) (hn : ¬ q < (2:ℚ)^(-1022:ℤ)) :
    (2:ℚ)^(Int.log 2 q) ≤ RN q := by
  unfold RN
  rw [if_neg (not_le.mpr hq), if_neg hn]
  have h52 : ((2:ℤ)^(52:ℕ) : ℤ) ≤ roundHE (q * (2:ℚ)^((52:ℤ) - Int.log 2 q)) := by
    refine le_trans (Int.le_floor.mpr ?_) (floor_le_roundHE _)
    push_cast
    calc ((2:ℚ)^(52:ℕ)) = (2:ℚ)^(52:ℤ) := by norm_num
      _ ≤ _ := scaled_lb hq
  calc (2:ℚ)^(Int.log 2 q) = (2:ℚ)^(52:ℤ) * (2:ℚ)^(Int.log 2 q - 52) := by
        rw [← zpow_add₀ (by norm_num : (2:ℚ) ≠ 0)]; ring_nf
    _ ≤ (roundHE (q * (2:ℚ)^((52:ℤ) - Int.log 2 q)) : ℚ) * (2:ℚ)^(Int.log 2 q - 52) := by
        refine mul_le_mul_of_nonneg_right ?_ (by positivity)
        calc (2:ℚ)^(52:ℤ) = (((2:ℤ)^(52:ℕ) : ℤ) : ℚ) := by norm_num
          _ ≤ _ := by exact_mod_cast h52

/-- A normal-range value rounds to at most `2 ^ (Int.log 2 q + 1)`. -/
theorem RN_normal_upper {q : ℚ} (hq : 0 < q) (hn : ¬ q < (2:ℚ)^(-1022:ℤ)) :
    RN q ≤ (2:ℚ)^(Int.log 2 q + 1) := by
  unfold RN
  rw [if_neg (not_le.mpr hq), if_neg hn]
  have h53 : roundHE (q * (2:ℚ)^((52:ℤ) - Int.log 2 q)) ≤ (2:ℤ)^(53:ℕ) := by
    refine le_trans (roundHE_le_floor_add_one _) ?_
    have : ⌊q * (2:ℚ)^((52:ℤ) - Int.log 2 q)⌋ < (2:ℤ)^(53:ℕ) := by
      rw [Int.floor_lt]
      push_cast
      calc q * (2:ℚ)^((52:ℤ) - Int.log 2 q) < (2:ℚ)^(53:ℤ) := scaled_ub hq
        _ = (2:ℚ)^(53:ℕ) := by norm_num
    omega
  calc (roundHE (q * (2:ℚ)^((52:ℤ) - Int.log 2 q)) : ℚ) * (2:ℚ)^(Int.log 2 q - 52)
      ≤ (2:ℚ)^(53:ℤ) * (2:ℚ)^(Int.log 2 q - 52) := by
        refine mul_le_mul_of_nonneg_right ?_ (by positivity)
        calc (roundHE (q * (2:ℚ)^((52:ℤ) - Int.log 2 q)) : ℚ)
            ≤ (((2:ℤ)^(53:ℕ) : ℤ) : ℚ) := by exact_mod_cast h53
          _ = (2:ℚ)^(53:ℤ) := by norm_num
    _ = (2:ℚ)^(Int.log 2 q + 1) := by
        rw [← zpow_add₀ (by norm_num : (2:ℚ) ≠ 0)]; ring_nf

/-- Rounding to binary64 is monotone. -/
theorem RN_mono {a b : ℚ} (hab : a ≤ b) : RN a ≤ RN b := by
  by_cases ha : a ≤ 0
  · rw [RN, if_pos ha]
    exact RN_nonneg b
  push_neg at ha
  have hb : ¬ b ≤ 0 := by linarith
  by_cases hsa : a < (2:ℚ)^(-1022:ℤ)
  · by_cases hsb : b < (2:ℚ)^(-1022:ℤ)
    · rw [RN, if_neg (not_le.mpr ha), if_pos hsa, RN, if_neg hb, if_pos hsb]
      refine mul_le_mul_of_nonneg_right ?_ (by positivity)
      exact_mod_cast roundHE_mono (mul_le_mul_of_nonneg_right hab (by positivity))
    · -- a subnormal, b normal
      have h1 : RN a ≤ (2:ℚ)^(-1022:ℤ) := by
        rw [RN, if_neg (not_le.mpr ha), if_pos hsa]
        have hlt : a * (2:ℚ)^(1074:ℤ) < (2:ℚ)^(52:ℤ) := by
          calc a * (2:ℚ)^(1074:ℤ) < (2:ℚ)^(-1022:ℤ) * (2:ℚ)^(1074:ℤ) :=
                mul_lt_mul_of_pos_right hsa (by positivity)
            _ = (2:ℚ)^(52:ℤ) := by
                rw [← zpow_add₀ (by norm_num : (2:ℚ) ≠ 0)]; norm_num
        have hr : roundHE (a * (2:ℚ)^(1074:ℤ)) ≤ (2:ℤ)^(52:ℕ) := by
          refine le_trans (roundHE_le_floor_add_one _) ?_
          have : ⌊a * (2:ℚ)^(1074:ℤ)⌋ < (2:ℤ)^(52:ℕ) := by
            rw [Int.floor_lt]
            push_cast
            calc a * (2:ℚ)^(1074:ℤ) < (2:ℚ)^(52:ℤ) := hlt
              _ = (2:ℚ)^(52:ℕ) := by norm_num
          omega
        calc (roundHE (a * (2:ℚ)^(1074:ℤ)) : ℚ) * (2:ℚ)^(-1074:ℤ)
            ≤ (2:ℚ)^(52:ℤ) * (2:ℚ)^(-1074:ℤ) := by
              refine mul_le_mul_of_nonneg_right ?_ (by positivity)
              calc (roundHE (a * (2:ℚ)^(1074:ℤ)) : ℚ) ≤ (((2:ℤ)^(52:ℕ) : ℤ) : ℚ) := by
                    exact_mod_cast hr
                _ = (2:ℚ)^(52:ℤ) := by norm_num
          _ = (2:ℚ)^(-1022:ℤ) := by
              rw [← zpow_add₀ (by norm_num : (2:ℚ) ≠ 0)]; norm_num
      have h2 : (2:ℚ)^(-1022:ℤ) ≤ RN b := by
        have hblog : (-1022:ℤ) ≤ Int.log 2 b := by
          have hcast : ((2:ℕ):ℚ) = (2:ℚ) := by norm_num
          refine (Int.zpow_le_iff_le_log (b := 2) (by norm_num) (not_le.mp hb)).mp ?_
          rw [hcast]
          exact not_lt.mp hsb
        calc (2:ℚ)^(-1022:ℤ) ≤ (2:ℚ)^(Int.log 2 b) := zpow_le_zpow_right₀ (by norm_num) hblog
          _ ≤ RN b := RN_normal_lower (not_le.mp hb) hsb
      linarith
  · -- both normal
    have hsb : ¬ b < (2:ℚ)^(-1022:ℤ) := by
      push_neg at hsa ⊢
      linarith
    have hlog : Int.log 2 a ≤ Int.log 2 b := Int.log_mono_right ha hab
    rcases eq_or_lt_of_le hlog with heq | hlt
    · rw [RN, if_neg (not_le.mpr ha), if_neg hsa, RN, if_neg hb, if_neg hsb, ← heq]
      refine mul_le_mul_of_nonneg_right ?_ (by positivity)
      exact_mod_cast roundHE_mono (mul_le_mul_of_nonneg_right hab (by positivity))
    · calc RN a ≤ (2:ℚ)^(Int.log 2 a + 1) := RN_normal_upper ha hsa
        _ ≤ (2:ℚ)^(Int.log 2 b) := zpow_le_zpow_right₀ (by norm_num) (by omega)
        _ ≤ RN b := RN_normal_lower (not_le.mp hb) hsb

/-! ## Lemmas about strings, ordering and sorting -/

/-- Lexicographic `≤` on character lists is total. -/
theorem lexLE_total (as : List Char) : ∀ bs, lexLE as bs = true ∨ lexLE bs as = true := by
  induction as with
  | nil => intro bs; left; rfl
  | cons a as ih =>
    intro bs
    cases bs with
    | nil => right; rfl
    | cons b bs =>
      simp only [lexLE]
      rcases Nat.lt_trichotomy a.toNat b.toNat with h | h | h
      · left; rw [if_pos h]
      · rw [if_neg (by omega), if_neg (by omega), if_neg (by omega), if_neg (by omega)]
        exact ih bs
      · right; rw [if_pos h]

/-- Lexicographic `≤` on character lists is transitive. -/
theorem lexLE_trans (as : List Char) :
    ∀ bs cs, lexLE as bs = true → lexLE bs cs = true → lexLE as cs = true := by
  induction as with
  | nil => intro bs cs _ _; rfl
  | cons a as ih =>
    intro bs cs h1 h2
    cases bs with
    | nil => simp [lexLE] at h1
    | cons b bs =>
      cases cs with
      | nil => simp [lexLE] at h2
      | cons c cs =>
        simp only [lexLE] at h1 h2 ⊢
        rcases Nat.lt_trichotomy a.toNat b.toNat with hab | hab | hab
        · -- a < b; from h2, b ≤ c
          rcases Nat.lt_trichotomy b.toNat c.toNat with hbc | hbc | hbc
          · rw [if_pos (by omega)]
          · rw [if_pos (by omega)]
          · rw [if_neg (by omega), if_pos hbc] at h2; exact absurd h2 (by simp)
        · -- a = b
          rcases Nat.lt_trichotomy b.toNat c.toNat with hbc | hbc | hbc
          · rw [if_pos (by omega)]
          · rw [if_neg (by omega), if_neg (by omega)] at h1 ⊢
            rw [if_neg (by omega), if_neg (by omega)] at h2
            exact ih bs cs h1 h2
          · rw [if_neg (by omega), if_pos hbc] at h2; exact absurd h2 (by simp)
        · rw [if_neg (by omega), if_pos hab] at h1; exact absurd h1 (by simp)

instance : IsTotal String strLE :=
  ⟨fun a b => (lexLE_total a.data b.data).imp id id⟩

instance : IsTrans String strLE :=
  ⟨fun a b c h1 h2 => lexLE_trans a.data b.data c.data h1 h2⟩

/-- The result of `pySorted` is sorted with respect to `strLE`. -/
theorem pySorted_sorted (l : List String) : List.Sorted strLE (pySorted l) :=
  List.sorted_insertionSort strLE l

/-- Sorting permutes the input. -/
theorem pySorted_perm (l : List String) : List.Perm (pySorted l) l :=
  List.perm_insertionSort strLE l

/-- Membership in a sorted list. -/
theorem mem_pySorted {x : String} {l : List String} : x ∈ pySorted l ↔ x ∈ l :=
  List.mem_insertionSort strLE

/-- Sorting preserves freedom from duplicates. -/
theorem pySorted_nodup {l : List String} (h : l.Nodup) : (pySorted l).Nodup :=
  ((pySorted_perm l).nodup_iff).mpr h

/-- ASCII lowercasing of a character is idempotent. -/
theorem toLower_idem (c : Char) : (Char.toLower c).toLower = c.toLower := by
  unfold Char.toLower
  by_cases h : c.toNat ≥ 65 ∧ c.toNat ≤ 90
  · rw [if_pos h]
    have hv : (c.toNat + 32).isValidChar := Or.inl (by omega)
    have ht : (Char.ofNat (c.toNat + 32)).toNat = c.toNat + 32 := by
      rw [Char.ofNat, dif_pos hv]
      rfl
    rw [ht, if_neg (by omega)]
  · rw [if_neg h, if_neg h]

/-- Python `str.lower()` is idempotent (ASCII model). -/
theorem pyLower_idem (s : String) : pyLower (pyLower s) = pyLower s := by
  unfold pyLower
  simp only [List.map_map]
  congr 1
  exact List.map_congr_left fun c _ => toLower_idem c

/-! ## Membership characterisations for the scorer -/

/-- Membership in the resume skill set is membership in the lowercased
concatenation of skills and tools. -/
theorem mem_resume_skillset {x : String} {r : ResumeInfo} :
    x ∈ resume_skillset r ↔ x ∈ (r.skills ++ r.tools).map pyLower :=
  List.mem_dedup

/-- A string is in `matched_required` exactly when it is a lowercased
required skill present in the resume skill set. -/
theorem mem_matched_required {jd : JDInfo} {r : ResumeInfo} {x : String} :
    x ∈ matched_required jd r ↔ x ∈ required_set jd ∧ x ∈ resume_skillset r := by
  unfold matched_required
  rw [mem_pySorted, List.mem_filter]
  simp

/-- A string is in `missing_required` exactly when it is a lowercased
required skill absent from the resume skill set. -/
theorem mem_missing_required {jd : JDInfo} {r : ResumeInfo} {x : String} :
    x ∈ missing_required jd r ↔ x ∈ required_set jd ∧ x ∉ resume_skillset r := by
  unfold missing_required
  rw [mem_pySorted, List.mem_filter]
  simp

/-- Membership characterisation for `matched_nice`. -/
theorem mem_matched_nice {jd : JDInfo} {r : ResumeInfo} {x : String} :
    x ∈ matched_nice jd r ↔ x ∈ nice_set jd ∧ x ∈ resume_skillset r := by
  unfold matched_nice
  rw [mem_pySorted, List.mem_filter]
  simp

/-- Membership characterisation for `missing_nice`. -/
theorem mem_missing_nice {jd : JDInfo} {r : ResumeInfo} {x : String} :
    x ∈ missing_nice jd r ↔ x ∈ nice_set jd ∧ x ∉ resume_skillset r := by
  unfold missing_nice
  rw [mem_pySorted, List.mem_filter]
  simp

/-! ## Concrete binary64 evaluations

Each evaluation follows the hardware: bracket the value between powers of
two, round the scaled 53-bit significand, and rescale. -/

/-- The double `0.7` is `6305039478318694 * 2 ^ (-53)`. -/
theorem D07_val : D07 = 6305039478318694 / 9007199254740992 := by
  unfold D07
  rw [RN_eq_of (e := -1) (m := 6305039478318694) (by norm_num) (by norm_num)
      (by norm_num) (roundHE_eq_lo (by norm_num) (by norm_num))]
  norm_num

/-- The double `0.3` is `5404319552844595 * 2 ^ (-54)`. -/
theorem D03_val : D03 = 5404319552844595 / 18014398509481984 := by
  unfold D03
  rw [RN_eq_of (e := -2) (m := 5404319552844595) (by norm_num) (by norm_num)
      (by norm_num) (roundHE_eq_lo (by norm_num) (by norm_num))]
  norm_num

/-- One is representable. -/
theorem RN_one : RN 1 = 1 := by
  rw [RN_eq_of (e := 0) (m := 4503599627370496) (by norm_num) (by norm_num)
      (by norm_num) (roundHE_eq_lo (by norm_num) (by norm_num))]
  norm_num

/-- One hundred is representable. -/
theorem RN_100 : RN 100 = 100 := by
  rw [RN_eq_of (e := 6) (m := 7036874417766400) (by norm_num) (by norm_num)
      (by norm_num) (roundHE_eq_lo (by norm_num) (by norm_num))]
  norm_num

/-- One quarter is representable. -/
theorem RN_quarter : RN (1/4 : ℚ) = 1/4 := by
  rw [RN_eq_of (e := -2) (m := 4503599627370496) (by norm_num) (by norm_num)
      (by norm_num) (roundHE_eq_lo (by norm_num) (by norm_num))]
  norm_num

/-- One half is representable. -/
theorem RN_half : RN (1/2 : ℚ) = 1/2 := by
  rw [RN_eq_of (e := -1) (m := 4503599627370496) (by norm_num) (by norm_num)
      (by norm_num) (roundHE_eq_lo (by norm_num) (by norm_num))]
  norm_num

/-- The double `0.7` is a fixed point of rounding. -/
theorem RN_D07 : RN D07 = D07 := by
  rw [D07_val]
  rw [RN_eq_of (e := -1) (m := 6305039478318694) (by norm_num) (by norm_num)
      (by norm_num) (roundHE_eq_lo (by norm_num) (by norm_num))]
  norm_num

/-- The double `0.3` is a fixed point of rounding. -/
theorem RN_D03 : RN D03 = D03 := by
  rw [D03_val]
  rw [RN_eq_of (e := -2) (m := 5404319552844595) (by norm_num) (by norm_num)
      (by norm_num) (roundHE_eq_lo (by norm_num) (by norm_num))]
  norm_num

/-- Float product `0.5 * 0.7` (exact, as halving is exact). -/
theorem RN_halfD07 : RN (1/2 * D07) = 6305039478318694 / 18014398509481984 := by
  rw [D07_val]
  rw [RN_eq_of (e := -2) (m := 6305039478318694) (by norm_num) (by norm_num)
      (by norm_num) (roundHE_eq_lo (by norm_num) (by norm_num))]
  norm_num

/-- Float product `0.25 * 0.3` (exact, as quartering is exact). -/
theorem RN_quarterD03 : RN (1/4 * D03) = 5404319552844595 / 72057594037927936 := by
  rw [D03_val]
  rw [RN_eq_of (e := -4) (m := 5404319552844595) (by norm_num) (by norm_num)
      (by norm_num) (roundHE_eq_lo (by norm_num) (by norm_num))]
  norm_num

/-- Float sum `0.7 + 0.075` (the 77.5-tie scenario, rounded down). -/
theorem RN_sumA :
    RN (6305039478318694 / 9007199254740992 + 5404319552844595 / 72057594037927936) =
      6980579422424268 / 9007199254740992 := by
  rw [RN_eq_of (e := -1) (m := 6980579422424268) (by norm_num) (by norm_num)
      (by norm_num) (roundHE_eq_lo (by norm_num) (by norm_num))]
  norm_num

/-- Float product of the previous sum with `100`: just below `77.5`. -/
theorem RN_A100 :
    RN (6980579422424268 / 9007199254740992 * 100) = 5453577673768959 / 70368744177664 := by
  rw [RN_eq_of (e := 6) (m := 5453577673768959) (by norm_num) (by norm_num)
      (by norm_num) (roundHE_eq_lo (by norm_num) (by norm_num))]
  norm_num

/-- Python `round` of the 77.5-scenario double gives `77`. -/
theorem roundHE_A : roundHE (5453577673768959 / 70368744177664 : ℚ) = 77 :=
  roundHE_eq_lo (by norm_num) (by norm_num)

/-- The double `0.35` is a fixed point of rounding. -/
theorem RN_B : RN (6305039478318694 / 18014398509481984 : ℚ) =
    6305039478318694 / 18014398509481984 := by
  rw [RN_eq_of (e := -2) (m := 6305039478318694) (by norm_num) (by norm_num)
      (by norm_num) (roundHE_eq_lo (by norm_num) (by norm_num))]
  norm_num

/-- Float product `0.35 * 100` rounds up to exactly `35`. -/
theorem RN_B100 : RN (6305039478318694 / 18014398509481984 * 100) = 35 := by
  rw [RN_eq_of (e := 5) (m := 4925812092436479 + 1) (by norm_num) (by norm_num)
      (by norm_num) (roundHE_eq_hi (n := 4925812092436479) (by norm_num) (by norm_num))]
  norm_num

/-- Float sum `0.7 + 0.3`: the scaled significand ties at `.5` on an odd
floor and rounds up to exactly `1`. -/
theorem RN_sumC :
    RN (6305039478318694 / 9007199254740992 + 5404319552844595 / 18014398509481984) = 1 := by
  rw [RN_eq_of (e := -1) (m := 9007199254740991 + 1) (by norm_num) (by norm_num)
      (by norm_num)
      (roundHE_eq_tie_odd (n := 9007199254740991) (by norm_num) (by omega))]
  norm_num

/-- Float product `0.25 * 0.7` (exact, as quartering is exact). -/
theorem RN_quarterD07 : RN (1/4 * D07) = 6305039478318694 / 36028797018963968 := by
  rw [D07_val]
  rw [RN_eq_of (e := -3) (m := 6305039478318694) (by norm_num) (by norm_num)
      (by norm_num) (roundHE_eq_lo (by norm_num) (by norm_num))]
  norm_num

/-- Float sum `0.175 + 0.3` (the 47.5-tie scenario; the sum is exact). -/
theorem RN_sumD :
    RN (6305039478318694 / 36028797018963968 + 5404319552844595 / 18014398509481984) =
      8556839292003942 / 18014398509481984 := by
  rw [RN_eq_of (e := -2) (m := 8556839292003942) (by norm_num) (by norm_num)
      (by norm_num) (roundHE_eq_lo (by norm_num) (by norm_num))]
  norm_num

/-- Float product of the previous sum with `100` rounds up to exactly
`47.5`. -/
theorem RN_D100 :
    RN (8556839292003942 / 18014398509481984 * 100) = 95/2 := by
  rw [RN_eq_of (e := 5) (m := 6685030696878079 + 1) (by norm_num) (by norm_num)
      (by norm_num) (roundHE_eq_hi (n := 6685030696878079) (by norm_num) (by norm_num))]
  norm_num

/-- Python `round` of the exactly representable `47.5` rounds to even:
`48`. -/
theorem roundHE_D : roundHE (95/2 : ℚ) = 48 := by
  rw [roundHE_eq_tie_odd (n := 47) (by norm_num) (by omega)]
  rfl

/-- Rounding `1.0` to three decimals for reporting gives `1.0`. -/
theorem round3_one : round3 1 = 1 := by
  unfold round3
  rw [show (1:ℚ) * 1000 = ((1000:ℤ):ℚ) by norm_num, roundHE_intCast]
  rw [show ((1000:ℤ):ℚ) / 1000 = 1 by norm_num, RN_one]

/-- Rounding `0.0` to three decimals gives `0.0`. -/
theorem round3_zero : round3 0 = 0 := by
  unfold round3
  rw [show (0:ℚ) * 1000 = ((0:ℤ):ℚ) by norm_num, roundHE_intCast]
  rw [show ((0:ℤ):ℚ) / 1000 = 0 by norm_num, RN_zero]

/-- Rounding `0.5` to three decimals gives `0.5`. -/
theorem round3_half : round3 (1/2) = 1/2 := by
  unfold round3
  rw [show (1/2:ℚ) * 1000 = ((500:ℤ):ℚ) by norm_num, roundHE_intCast]
  rw [show ((500:ℤ):ℚ) / 1000 = 1/2 by norm_num, RN_half]

/-- Rounding `0.25` to three decimals gives `0.25`. -/
theorem round3_quarter : round3 (1/4) = 1/4 := by
  unfold round3
  rw [show (1/4:ℚ) * 1000 = ((250:ℤ):ℚ) by norm_num, roundHE_intCast]
  rw [show ((250:ℤ):ℚ) / 1000 = 1/4 by norm_num, RN_quarter]

/-! ## Concrete records used by the claims -/

/-- The mixed-match instance of spec §8: two required skills, one nice
skill, resume knows only python. -/
def jdMixed : JDInfo := ⟨"", "", "", ["python", "sql"], ["docker"], [], []⟩

/-- Resume for the mixed-match instance. -/
def resumeMixed : ResumeInfo := ⟨"", "", ["python"], []⟩

/-- A JD with no required skills and four nice-to-have skills: its exact
weighted score at one matched nice skill is 70 + 30/4 = 77.5, a tie. -/
def jdTie : JDInfo := ⟨"", "", "", [], ["a", "b", "c", "d"], [], []⟩

/-- Resume matching exactly one of the four nice-to-have skills. -/
def resumeTie : ResumeInfo := ⟨"", "", ["a"], []⟩

/-- A JD with four required skills and no nice-to-have skills: its exact
weighted score at one matched required skill is 70/4 + 30 = 47.5, a tie in
the other rounding direction. -/
def jdTie2 : JDInfo := ⟨"", "", "", ["a", "b", "c", "d"], [], [], []⟩

/-- Resume matching exactly one of the four required skills. -/
def resumeTie2 : ResumeInfo := ⟨"", "", ["a"], []⟩

/-- Modelled from the spec (§4.4 step 6): the overall score computed from
the two match fractions in exact arithmetic, rounding ties to even. -/
def spec_overall_half_even (requiredScore niceScore : ℚ) : ℤ :=
  roundHE ((requiredScore * (7/10) + niceScore * (3/10)) * 100)

/-- Modelled from the spec (§4.4 step 6): the same score rounding ties
upward (the spec's other candidate policy). -/
def spec_overall_half_up (requiredScore niceScore : ℚ) : ℤ :=
  ⌊(requiredScore * (7/10) + niceScore * (3/10)) * 100 + 1/2⌋

/-! ## Evaluation of the scorer on the concrete records -/

/-- Required score of the mixed-match instance: one of two matched. -/
theorem required_score_mixed : required_score jdMixed resumeMixed = 1/2 := by
  have h1 : required_set jdMixed = ["python", "sql"] := by decide
  have h2 : matched_required jdMixed resumeMixed = ["python"] := by decide
  unfold required_score
  rw [h1, h2]
  norm_num
  exact RN_half

/-- Nice score of the mixed-match instance: zero of one matched. -/
theorem nice_score_mixed : nice_score jdMixed resumeMixed = 0 := by
  have h1 : nice_set jdMixed = ["docker"] := by decide
  have h2 : matched_nice jdMixed resumeMixed = [] := by decide
  unfold nice_score
  rw [h1, h2]
  norm_num
  exact RN_zero

/-- Overall score of the mixed-match instance is exactly 35. -/
theorem overall_mixed : overall_score jdMixed resumeMixed = 35 := by
  unfold overall_score pyRound overall_raw
  rw [required_score_mixed, nice_score_mixed, RN_halfD07, zero_mul, RN_zero,
      add_zero, RN_B, RN_B100]
  rw [show (35:ℚ) = ((35:ℤ):ℚ) by norm_num, roundHE_intCast]

/-- Required score of the tie instance: vacuously 1.0. -/
theorem required_score_tie : required_score jdTie resumeTie = 1 := by
  have h1 : required_set jdTie = [] := by decide
  unfold required_score
  rw [h1, if_pos rfl]

/-- Nice score of the tie instance: one of four matched. -/
theorem nice_score_tie : nice_score jdTie resumeTie = 1/4 := by
  have h1 : nice_set jdTie = ["a", "b", "c", "d"] := by decide
  have h2 : matched_nice jdTie resumeTie = ["a"] := by decide
  unfold nice_score
  rw [h1, h2]
  norm_num
  exact RN_quarter

/-- Overall score of the tie instance: the float pipeline lands just
below 77.5 and Python rounds to 77. -/
theorem overall_tie : overall_score jdTie resumeTie = 77 := by
  unfold overall_score pyRound overall_raw
  rw [required_score_tie, nice_score_tie, one_mul, RN_D07, RN_quarterD03, D07_val,
      RN_sumA, RN_A100, roundHE_A]

/-- Required score of the second tie instance: one of four matched. -/
theorem required_score_tie2 : required_score jdTie2 resumeTie2 = 1/4 := by
  have h1 : required_set jdTie2 = ["a", "b", "c", "d"] := by decide
  have h2 : matched_required jdTie2 resumeTie2 = ["a"] := by decide
  unfold required_score
  rw [h1, h2]
  norm_num
  exact RN_quarter

/-- Nice score of the second tie instance: vacuously 1.0. -/
theorem nice_score_tie2 : nice_score jdTie2 resumeTie2 = 1 := by
  have h1 : nice_set jdTie2 = [] := by decide
  unfold nice_score
  rw [h1, if_pos rfl]

/-- Overall score of the second tie instance: the float pipeline lands on
exactly 47.5 and Python rounds to even, giving 48. -/
theorem overall_tie2 : overall_score jdTie2 resumeTie2 = 48 := by
  unfold overall_score pyRound overall_raw
  rw [required_score_tie2, nice_score_tie2, one_mul, RN_D03, RN_quarterD07, D03_val,
      RN_sumD, RN_D100, roundHE_D]

/-! ## Claim C1 -/

/-- C1, as stated, is false on the code: at `jdTie`/`resumeTie` the code's
match fractions are exactly 1 and 1/4, so the claimed formula
`round((requiredScore * 0.7 + niceScore * 0.3) * 100)` evaluates the exact
tie 77.5, which every consistent rounding policy offered by the spec
(half-to-even or half-up) sends to 78 — but `_compute_match` returns 77,
because the float pipeline lands just below the tie.  (At the 47.5 tie the
same code rounds up to 48, so no single tie policy describes it.) -/
theorem c1_counterexample :
    (_compute_match jdTie resumeTie).overall_score = 77 ∧
    required_score jdTie resumeTie = 1 ∧
    nice_score jdTie resumeTie = 1/4 ∧
    (1 * (7/10 : ℚ) + (1/4) * (3/10)) * 100 = 155/2 ∧
    spec_overall_half_even 1 (1/4) = 78 ∧
    spec_overall_half_up 1 (1/4) = 78 := by
  refine ⟨overall_tie, required_score_tie, nice_score_tie, by norm_num, ?_, ?_⟩
  · unfold spec_overall_half_even
    rw [show (1 * (7/10 : ℚ) + (1/4) * (3/10)) * 100 = ((77:ℤ):ℚ) + 1/2 by norm_num]
    rw [roundHE_eq_tie_odd rfl (by omega)]
    rfl
  · unfold spec_overall_half_up
    rw [show (1 * (7/10 : ℚ) + (1/4) * (3/10)) * 100 + 1/2 = ((78:ℤ):ℚ) by norm_num]
    exact floor_eq_of (by norm_num) (by norm_num)

/-- C1 (amended): on the spec's concrete instance the scorer returns
requiredScore 0.5, niceScore 0.0 and overallScore 35; in general
`overallScore` is Python's `round` (nearest integer, ties to even) of the
double-precision evaluation of `(requiredScore * 0.7 + niceScore * 0.3) * 100`,
which at exact rational ties at .5 may deviate from any single exact
rounding policy because of float error: the exact tie 47.5 (one of four
required matched, no nice list) lands on the representable 47.5 and rounds
to 48, while the exact tie 77.5 of the counterexample rounds to 77. -/
theorem c1_weighted_overall_score :
    (_compute_match jdMixed resumeMixed).required_match_fraction = 1/2 ∧
    (_compute_match jdMixed resumeMixed).nice_to_have_match_fraction = 0 ∧
    (_compute_match jdMixed resumeMixed).overall_score = 35 ∧
    (∀ (jd : JDInfo) (resume : ResumeInfo),
      (_compute_match jd resume).overall_score =
        roundHE (RN (RN (RN (required_score jd resume * D07) +
          RN (nice_score jd resume * D03)) * 100))) ∧
    required_score jdTie2 resumeTie2 = 1/4 ∧
    nice_score jdTie2 resumeTie2 = 1 ∧
    (_compute_match jdTie2 resumeTie2).overall_score = 48 := by
  refine ⟨?_, ?_, overall_mixed, fun jd resume => rfl,
    required_score_tie2, nice_score_tie2, overall_tie2⟩
  · show round3 (required_score jdMixed resumeMixed) = 1/2
    rw [required_score_mixed, round3_half]
  · show round3 (nice_score jdMixed resumeMixed) = 0
    rw [nice_score_mixed, round3_zero]

/-! ## Claim C2 -/

/-- C2: an empty required-skills list scores as fully satisfied
(`requiredMatchFraction = 1.0`), symmetrically for the nice-to-have list,
and with both lists empty the overall score is 100 for every resume. -/
theorem c2_empty_lists_vacuously_true (jd : JDInfo) (resume : ResumeInfo) :
    (jd.required_skills = [] →
      (_compute_match jd resume).required_match_fraction = 1) ∧
    (jd.nice_to_have_skills = [] →
      (_compute_match jd resume).nice_to_have_match_fraction = 1) ∧
    (jd.required_skills = [] → jd.nice_to_have_skills = [] →
      (_compute_match jd resume).overall_score = 100) := by
  have hreq : jd.required_skills = [] → required_set jd = [] := fun h => by
    simp [required_set, h]
  have hnice : jd.nice_to_have_skills = [] → nice_set jd = [] := fun h => by
    simp [nice_set, h]
  have hrs : jd.required_skills = [] → required_score jd resume = 1 := fun h => by
    unfold required_score
    rw [hreq h, if_pos rfl]
  have hns : jd.nice_to_have_skills = [] → nice_score jd resume = 1 := fun h => by
    unfold nice_score
    rw [hnice h, if_pos rfl]
  refine ⟨fun h => ?_, fun h => ?_, fun h1 h2 => ?_⟩
  · show round3 (required_score jd resume) = 1
    rw [hrs h, round3_one]
  · show round3 (nice_score jd resume) = 1
    rw [hns h, round3_one]
  · show pyRound (overall_raw jd resume) = 100
    unfold pyRound overall_raw
    rw [hrs h1, hns h2, one_mul, one_mul, RN_D07, RN_D03, D07_val, D03_val,
        RN_sumC, one_mul, RN_100]
    rw [show (100:ℚ) = ((100:ℤ):ℚ) by norm_num, roundHE_intCast]

/-- C2 witness: a JD with both skill lists empty scores 100 against a
resume that lists unrelated skills and tools. -/
theorem c2_witness :
    (_compute_match ⟨"", "", "", [], [], [], []⟩ ⟨"", "", ["x"], ["y"]⟩).required_match_fraction = 1 ∧
    (_compute_match ⟨"", "", "", [], [], [], []⟩ ⟨"", "", ["x"], ["y"]⟩).nice_to_have_match_fraction = 1 ∧
    (_compute_match ⟨"", "", "", [], [], [], []⟩ ⟨"", "", ["x"], ["y"]⟩).overall_score = 100 := by
  obtain ⟨h1, h2, h3⟩ :=
    c2_empty_lists_vacuously_true ⟨"", "", "", [], [], [], []⟩ ⟨"", "", ["x"], ["y"]⟩
  exact ⟨h1 rfl, h2 rfl, h3 rfl rfl⟩

/-! ## Claim C5 -/

/-- Elements of a deduplicated lowercased list are fixed by lowercasing. -/
theorem lower_fixed_of_mem_dedup_map {x : String} {l : List String}
    (h : x ∈ (l.map pyLower).dedup) : pyLower x = x := by
  rw [List.mem_dedup, List.mem_map] at h
  obtain ⟨y, _, rfl⟩ := h
  exact pyLower_idem y

/-- C5: skill matching is case-insensitive; a JD required skill is matched
exactly when its lowercase form is in the lowercase-normalised union of
resume.skills and resume.tools. -/
theorem c5_case_insensitive_matching (jd : JDInfo) (resume : ResumeInfo)
    (s : String) (hs : s ∈ jd.required_skills) :
    pyLower s ∈ (_compute_match jd resume).matched_required_skills ↔
      pyLower s ∈ (resume.skills ++ resume.tools).map pyLower := by
  show pyLower s ∈ matched_required jd resume ↔ _
  rw [mem_matched_required, ← mem_resume_skillset]
  constructor
  · exact fun h => h.2
  · intro h
    refine ⟨?_, h⟩
    unfold required_set
    rw [List.mem_dedup, List.mem_map]
    exact ⟨s, hs, rfl⟩

/-- C5 witness: required skill `"Python"` matches resume skill `"python"`. -/
theorem c5_witness :
    (pyLower "Python" ∈
        (_compute_match ⟨"", "", "", ["Python"], [], [], []⟩
          ⟨"", "", ["python"], []⟩).matched_required_skills ↔
      pyLower "Python" ∈ ((["python"] : List String) ++ []).map pyLower) ∧
    "python" ∈
      (_compute_match ⟨"", "", "", ["Python"], [], [], []⟩
        ⟨"", "", ["python"], []⟩).matched_required_skills := by
  have h := c5_case_insensitive_matching ⟨"", "", "", ["Python"], [], [], []⟩
    ⟨"", "", ["python"], []⟩ "Python" (by decide)
  refine ⟨h, ?_⟩
  have h2 := h.mpr (by decide)
  exact (by decide : pyLower "Python" = "python") ▸ h2

/-! ## Claim C6 -/

/-- The shape asserted for each output list: sorted ascending in the
code-point lexicographic order, duplicate-free, all lowercase-normalised. -/
def sortedLowerSet (l : List String) : Prop :=
  List.Sorted strLE l ∧ l.Nodup ∧ ∀ x ∈ l, pyLower x = x

/-- C6: all four skill lists of the match result are duplicate-free,
lexicographically sorted lists of lowercase-normalised strings. -/
theorem c6_output_lists_sorted_lowercase (jd : JDInfo) (resume : ResumeInfo) :
    sortedLowerSet (_compute_match jd resume).matched_required_skills ∧
    sortedLowerSet (_compute_match jd resume).missing_required_skills ∧
    sortedLowerSet (_compute_match jd resume).matched_nice_to_have ∧
    sortedLowerSet (_compute_match jd resume).missing_nice_to_have := by
  have key : ∀ (base : List String) (p : String → Bool),
      sortedLowerSet (pySorted ((base.map pyLower).dedup.filter p)) := by
    intro base p
    refine ⟨pySorted_sorted _, pySorted_nodup ((List.nodup_dedup _).filter p), ?_⟩
    intro x hx
    rw [mem_pySorted, List.mem_filter] at hx
    exact lower_fixed_of_mem_dedup_map hx.1
  exact ⟨key jd.required_skills _, key jd.required_skills _,
         key jd.nice_to_have_skills _, key jd.nice_to_have_skills _⟩

/-! ## Claim C7 -/

/-- C7: the integer score is computed from the unrounded match fractions
(the three-decimal rounding happens only in the two reported fraction
fields), and the integer score depends only on the unrounded fractions. -/
theorem c7_score_from_unrounded (jd : JDInfo) (resume : ResumeInfo) :
    (_compute_match jd resume).overall_score =
      roundHE (RN (RN (RN (required_score jd resume * D07) +
        RN (nice_score jd resume * D03)) * 100)) ∧
    (_compute_match jd resume).required_match_fraction =
      round3 (required_score jd resume) ∧
    (_compute_match jd resume).nice_to_have_match_fraction =
      round3 (nice_score jd resume) ∧
    ∀ (jd' : JDInfo) (resume' : ResumeInfo),
      required_score jd resume = required_score jd' resume' →
      nice_score jd resume = nice_score jd' resume' →
      (_compute_match jd resume).overall_score =
        (_compute_match jd' resume').overall_score := by
  refine ⟨rfl, rfl, rfl, fun jd' resume' h1 h2 => ?_⟩
  show pyRound (overall_raw jd resume) = pyRound (overall_raw jd' resume')
  unfold overall_raw
  rw [h1, h2]

/-- C7 witness: instantiated at the mixed-match records, with a second
JD differing only in its title (same unrounded fractions, same score). -/
theorem c7_witness :
    (_compute_match jdMixed resumeMixed).overall_score =
      roundHE (RN (RN (RN (required_score jdMixed resumeMixed * D07) +
        RN (nice_score jdMixed resumeMixed * D03)) * 100)) ∧
    (_compute_match jdMixed resumeMixed).overall_score =
      (_compute_match ⟨"Data Engineer", "", "", ["python", "sql"], ["docker"], [], []⟩
        resumeMixed).overall_score := by
  obtain ⟨h1, _, _, h4⟩ := c7_score_from_unrounded jdMixed resumeMixed
  exact ⟨h1, h4 ⟨"Data Engineer", "", "", ["python", "sql"], ["docker"], [], []⟩
    resumeMixed rfl rfl⟩

/-! ## Claim C9 -/

/-- Filtering with a pointwise weaker predicate keeps at least as many
elements. -/
theorem length_filter_mono {α : Type} (l : List α) (p q : α → Bool)
    (h : ∀ x ∈ l, p x = true → q x = true) :
    (l.filter p).length ≤ (l.filter q).length := by
  induction l with
  | nil => exact le_refl 0
  | cons a l ih =>
    have ih' := ih (fun x hx => h x (List.mem_cons_of_mem a hx))
    by_cases hp : p a = true
    · rw [List.filter_cons_of_pos hp, List.filter_cons_of_pos (h a (List.mem_cons_self a l) hp)]
      simpa using ih'
    · rw [List.filter_cons_of_neg (by simpa using hp)]
      refine le_trans ih' ?_
      by_cases hq : q a = true
      · rw [List.filter_cons_of_pos hq]; simp
      · rw [List.filter_cons_of_neg (by simpa using hq)]

/-- Reporting rounding to three decimals is monotone. -/
theorem round3_mono {a b : ℚ} (h : a ≤ b) : round3 a ≤ round3 b := by
  unfold round3
  refine RN_mono (div_le_div_of_nonneg_right ?_ (by norm_num))
  exact_mod_cast roundHE_mono (mul_le_mul_of_nonneg_right h (by norm_num))

/-- What one enlargement step of the resume skill set may not do to the
match result: scores and fractions may not drop, matched skills may not
disappear, missing skills may not appear. -/
def scoreMonotoneStep (jd : JDInfo) (r r' : ResumeInfo) : Prop :=
  (_compute_match jd r).overall_score ≤ (_compute_match jd r').overall_score ∧
  (_compute_match jd r).required_match_fraction ≤
    (_compute_match jd r').required_match_fraction ∧
  (_compute_match jd r).nice_to_have_match_fraction ≤
    (_compute_match jd r').nice_to_have_match_fraction ∧
  (∀ x ∈ (_compute_match jd r).matched_required_skills,
    x ∈ (_compute_match jd r').matched_required_skills) ∧
  (∀ x ∈ (_compute_match jd r).matched_nice_to_have,
    x ∈ (_compute_match jd r').matched_nice_to_have) ∧
  (∀ x ∈ (_compute_match jd r').missing_required_skills,
    x ∈ (_compute_match jd r).missing_required_skills) ∧
  (∀ x ∈ (_compute_match jd r').missing_nice_to_have,
    x ∈ (_compute_match jd r).missing_nice_to_have)

/-- Monotonicity of the scorer under enlargement of the resume skill set. -/
theorem scorer_mono_of_subset (jd : JDInfo) (r r' : ResumeInfo)
    (hsub : ∀ x, x ∈ resume_skillset r → x ∈ resume_skillset r') :
    scoreMonotoneStep jd r r' := by
  have hlen : ∀ base : List String,
      ((base.filter (fun s => decide (s ∈ resume_skillset r))).length : ℚ) ≤
        ((base.filter (fun s => decide (s ∈ resume_skillset r'))).length : ℚ) := by
    intro base
    exact_mod_cast length_filter_mono base _ _
      (fun x _ hx => by simpa using hsub x (by simpa using hx))
  have hmrlen : ((matched_required jd r).length : ℚ) ≤
      ((matched_required jd r').length : ℚ) := by
    unfold matched_required
    rw [(pySorted_perm _).length_eq, (pySorted_perm _).length_eq]
    exact hlen (required_set jd)
  have hmnlen : ((matched_nice jd r).length : ℚ) ≤ ((matched_nice jd r').length : ℚ) := by
    unfold matched_nice
    rw [(pySorted_perm _).length_eq, (pySorted_perm _).length_eq]
    exact hlen (nice_set jd)
  have hrs : required_score jd r ≤ required_score jd r' := by
    unfold required_score
    by_cases hreq : required_set jd = []
    · rw [if_pos hreq, if_pos hreq]
    · rw [if_neg hreq, if_neg hreq]
      have hpos : (0:ℚ) < ((required_set jd).length : ℚ) := by
        have : required_set jd ≠ [] := hreq
        have := List.length_pos.mpr this
        exact_mod_cast this
      exact RN_mono (div_le_div_of_nonneg_right hmrlen hpos.le)
  have hns : nice_score jd r ≤ nice_score jd r' := by
    unfold nice_score
    by_cases hn : nice_set jd = []
    · rw [if_pos hn, if_pos hn]
    · rw [if_neg hn, if_neg hn]
      have hpos : (0:ℚ) < ((nice_set jd).length : ℚ) := by
        have := List.length_pos.mpr (hn : nice_set jd ≠ [])
        exact_mod_cast this
      exact RN_mono (div_le_div_of_nonneg_right hmnlen hpos.le)
  have hD07 : (0:ℚ) ≤ D07 := RN_nonneg _
  have hD03 : (0:ℚ) ≤ D03 := RN_nonneg _
  have hoverall : overall_score jd r ≤ overall_score jd r' := by
    unfold overall_score pyRound overall_raw
    refine roundHE_mono (RN_mono (mul_le_mul_of_nonneg_right (RN_mono (add_le_add ?_ ?_))
      (by norm_num)))
    · exact RN_mono (mul_le_mul_of_nonneg_right hrs hD07)
    · exact RN_mono (mul_le_mul_of_nonneg_right hns hD03)
  refine ⟨hoverall, round3_mono hrs, round3_mono hns, ?_, ?_, ?_, ?_⟩
  · intro x hx
    rw [show (_compute_match jd r).matched_required_skills = matched_required jd r from rfl,
        mem_matched_required] at hx
    rw [show (_compute_match jd r').matched_required_skills = matched_required jd r' from rfl,
        mem_matched_required]
    exact ⟨hx.1, hsub x hx.2⟩
  · intro x hx
    rw [show (_compute_match jd r).matched_nice_to_have = matched_nice jd r from rfl,
        mem_matched_nice] at hx
    rw [show (_compute_match jd r').matched_nice_to_have = matched_nice jd r' from rfl,
        mem_matched_nice]
    exact ⟨hx.1, hsub x hx.2⟩
  · intro x hx
    rw [show (_compute_match jd r').missing_required_skills = missing_required jd r' from rfl,
        mem_missing_required] at hx
    rw [show (_compute_match jd r).missing_required_skills = missing_required jd r from rfl,
        mem_missing_required]
    exact ⟨hx.1, fun hc => hx.2 (hsub x hc)⟩
  · intro x hx
    rw [show (_compute_match jd r').missing_nice_to_have = missing_nice jd r' from rfl,
        mem_missing_nice] at hx
    rw [show (_compute_match jd r).missing_nice_to_have = missing_nice jd r from rfl,
        mem_missing_nice]
    exact ⟨hx.1, fun hc => hx.2 (hsub x hc)⟩

/-- Appending to the skills list only enlarges the resume skill set. -/
theorem skillset_subset_append_skills (r : ResumeInfo) (s : String) :
    ∀ x, x ∈ resume_skillset r →
      x ∈ resume_skillset ⟨r.name, r.headline, r.skills ++ [s], r.tools⟩ := by
  intro x hx
  rw [mem_resume_skillset] at hx ⊢
  rw [List.mem_map] at hx ⊢
  obtain ⟨y, hy, rfl⟩ := hx
  refine ⟨y, ?_, rfl⟩
  simp only [List.mem_append] at hy ⊢
  tauto

/-- Appending to the tools list only enlarges the resume skill set. -/
theorem skillset_subset_append_tools (r : ResumeInfo) (s : String) :
    ∀ x, x ∈ resume_skillset r →
      x ∈ resume_skillset ⟨r.name, r.headline, r.skills, r.tools ++ [s]⟩ := by
  intro x hx
  rw [mem_resume_skillset] at hx ⊢
  rw [List.mem_map] at hx ⊢
  obtain ⟨y, hy, rfl⟩ := hx
  refine ⟨y, ?_, rfl⟩
  simp only [List.mem_append] at hy ⊢
  tauto

/-- C9: appending a string to resume.skills or to resume.tools never
decreases the overall score or either reported fraction, never removes a
skill from a matched list, and never adds a skill to a missing list. -/
theorem c9_monotone_in_resume_skills (jd : JDInfo) (r : ResumeInfo) (s : String) :
    scoreMonotoneStep jd r ⟨r.name, r.headline, r.skills ++ [s], r.tools⟩ ∧
    scoreMonotoneStep jd r ⟨r.name, r.headline, r.skills, r.tools ++ [s]⟩ :=
  ⟨scorer_mono_of_subset jd r _ (skillset_subset_append_skills r s),
   scorer_mono_of_subset jd r _ (skillset_subset_append_tools r s)⟩

/-- C9 witness: adding `"sql"` to the mixed-match resume cannot lower
the score, and the already matched `"python"` stays matched. -/
theorem c9_witness :
    (_compute_match jdMixed resumeMixed).overall_score ≤
      (_compute_match jdMixed
        ⟨resumeMixed.name, resumeMixed.headline,
          resumeMixed.skills ++ ["sql"], resumeMixed.tools⟩).overall_score ∧
    "python" ∈ (_compute_match jdMixed
      ⟨resumeMixed.name, resumeMixed.headline,
        resumeMixed.skills ++ ["sql"], resumeMixed.tools⟩).matched_required_skills := by
  obtain ⟨h1, _, _, h4, _, _, _⟩ := (c9_monotone_in_resume_skills jdMixed resumeMixed "sql").1
  exact ⟨h1, h4 "python" (by decide)⟩

/-! ## Claim C10 -/

/-- The match result is a function of the membership predicate of the
resume skill set: two resumes whose combined lowercased skills-and-tools
sets agree get identical results. -/
theorem compute_match_congr (jd : JDInfo) (r r' : ResumeInfo)
    (h : ∀ x, x ∈ resume_skillset r ↔ x ∈ resume_skillset r') :
    _compute_match jd r = _compute_match jd r' := by
  have hfil : ∀ base : List String,
      base.filter (fun s => decide (s ∈ resume_skillset r)) =
        base.filter (fun s => decide (s ∈ resume_skillset r')) := by
    intro base
    refine List.filter_congr fun x _ => ?_
    exact decide_eq_decide.mpr (h x)
  have hfil' : ∀ base : List String,
      base.filter (fun s => decide (s ∉ resume_skillset r)) =
        base.filter (fun s => decide (s ∉ resume_skillset r')):= by
    intro base
    refine List.filter_congr fun x _ => ?_
    exact decide_eq_decide.mpr (not_congr (h x))
  have hmr : matched_required jd r = matched_required jd r' := by
    unfold matched_required
    rw [hfil]
  have hmsr : missing_required jd r = missing_required jd r' := by
    unfold missing_required
    rw [hfil']
  have hmn : matched_nice jd r = matched_nice jd r' := by
    unfold matched_nice
    rw [hfil]
  have hmsn : missing_nice jd r = missing_nice jd r' := by
    unfold missing_nice
    rw [hfil']
  have hrs : required_score jd r = required_score jd r' := by
    unfold required_score
    rw [hmr]
  have hns : nice_score jd r = nice_score jd r' := by
    unfold nice_score
    rw [hmn]
  unfold _compute_match overall_score pyRound overall_raw
  rw [hrs, hns, hmr, hmsr, hmn, hmsn]

/-- C10: the scorer depends on resume.skills and resume.tools only through
their combined lowercase set — swapping the two lists, moving an element
between them, permuting a list, or appending a duplicate all leave the
whole `MatchResult` unchanged. -/
theorem c10_skillset_determines_result (jd : JDInfo) :
    (∀ r r' : ResumeInfo,
      (∀ x, x ∈ resume_skillset r ↔ x ∈ resume_skillset r') →
      _compute_match jd r = _compute_match jd r') ∧
    (∀ (nm hd : String) (sk tl : List String),
      _compute_match jd ⟨nm, hd, sk, tl⟩ = _compute_match jd ⟨nm, hd, tl, sk⟩) ∧
    (∀ (nm hd : String) (sk tl : List String) (s : String),
      _compute_match jd ⟨nm, hd, sk ++ [s], tl⟩ =
        _compute_match jd ⟨nm, hd, sk, tl ++ [s]⟩) ∧
    (∀ (nm hd : String) (sk sk' tl tl' : List String),
      List.Perm sk sk' → List.Perm tl tl' →
      _compute_match jd ⟨nm, hd, sk, tl⟩ = _compute_match jd ⟨nm, hd, sk', tl'⟩) ∧
    (∀ (nm hd : String) (sk tl : List String) (s : String), s ∈ sk →
      _compute_match jd ⟨nm, hd, sk ++ [s], tl⟩ = _compute_match jd ⟨nm, hd, sk, tl⟩) := by
  refine ⟨compute_match_congr jd, ?_, ?_, ?_, ?_⟩
  · intro nm hd sk tl
    refine compute_match_congr jd _ _ fun x => ?_
    rw [mem_resume_skillset, mem_resume_skillset]
    simp only [List.mem_map, List.mem_append]
    constructor <;> (rintro ⟨y, hy, rfl⟩; exact ⟨y, by tauto, rfl⟩)
  · intro nm hd sk tl s
    refine compute_match_congr jd _ _ fun x => ?_
    rw [mem_resume_skillset, mem_resume_skillset]
    simp only [List.mem_map, List.mem_append, List.mem_singleton]
    constructor <;> (rintro ⟨y, hy, rfl⟩; exact ⟨y, by tauto, rfl⟩)
  · intro nm hd sk sk' tl tl' hp hp'
    refine compute_match_congr jd _ _ fun x => ?_
    rw [mem_resume_skillset, mem_resume_skillset]
    simp only [List.mem_map, List.mem_append]
    constructor <;> rintro ⟨y, hy, rfl⟩ <;> refine ⟨y, ?_, rfl⟩
    · rcases hy with hy | hy
      · exact Or.inl (hp.mem_iff.mp hy)
      · exact Or.inr (hp'.mem_iff.mp hy)
    · rcases hy with hy | hy
      · exact Or.inl (hp.mem_iff.mpr hy)
      · exact Or.inr (hp'.mem_iff.mpr hy)
  · intro nm hd sk tl s hs
    refine compute_match_congr jd _ _ fun x => ?_
    rw [mem_resume_skillset, mem_resume_skillset]
    simp only [List.mem_map, List.mem_append, List.mem_singleton]
    constructor <;> rintro ⟨y, hy, rfl⟩
    · refine ⟨y, ?_, rfl⟩
      rcases hy with (hy | rfl) | hy
      · exact Or.inl hy
      · exact Or.inl hs
      · exact Or.inr hy
    · exact ⟨y, by tauto, rfl⟩

/-- C10 witness: a resume listing Python as a skill and SQL as a tool is
scored identically to one listing sql, python (and python again) as
skills only. -/
theorem c10_witness :
    _compute_match jdMixed ⟨"", "", ["Python"], ["SQL"]⟩ =
      _compute_match jdMixed ⟨"", "", ["sql", "python", "python"], []⟩ := by
  refine (c10_skillset_determines_result jdMixed).1 _ _ fun x => ?_
  rw [show resume_skillset ⟨"", "", ["Python"], ["SQL"]⟩ = ["python", "sql"] from by decide,
      show resume_skillset ⟨"", "", ["sql", "python", "python"], []⟩ = ["sql", "python"]
        from by decide]
  constructor <;> (intro h; simp only [List.mem_cons, List.not_mem_nil] at h ⊢; tauto)

/-! ## Claim C3 -/

/-- Modelled from the spec (§4.1 and §7): the spec's error taxonomy names
a distinct `MalformedResponseError` (and `UpstreamError`) that the client
is said to raise after catching the parse failure.  No such class exists
anywhere in the repository source. -/
inductive SpecClientError where
  | upstreamError
  | malformedResponseError
deriving DecidableEq

/-- Modelled from the spec (§4.1): a client that catches the JSON parse
failure and re-reports it as `MalformedResponseError`. -/
def spec_call_llm_json (content : String) : Except SpecClientError Json :=
  match json_loads content with
  | .ok v => .ok v
  | .error _ => .error .malformedResponseError

/-- The only exception `json.loads` raises is `json.JSONDecodeError`. -/
theorem json_loads_error_shape (s : String) (e : PyError)
    (h : json_loads s = .error e) : e = .jsonDecodeError := by
  unfold json_loads at h
  split at h
  · split at h
    · exact absurd h (by simp)
    · injection h with h'
      exact h'.symm
  · injection h with h'
    exact h'.symm

/-- C3 counterexample: on a non-JSON body the code surfaces the raw
`json.JSONDecodeError` raised by `json.loads` — `_call_llm_json` contains
no handler, so the parse fault propagates unhandled and is never converted
into the `MalformedResponseError` the spec describes (which the modelled
spec client would return on the same input). -/
theorem c3_counterexample :
    _call_llm_json "not json" = .error .jsonDecodeError ∧
    _call_llm_json "not json" = json_loads "not json" ∧
    spec_call_llm_json "not json" = .error .malformedResponseError :=
  ⟨rfl, rfl, rfl⟩

/-- C3 (amended): every call of `_call_llm_json` either returns exactly
the JSON document parsed from the body, or raises the raw
`json.JSONDecodeError` of the uncaught parse failure; a parse failure is
never coerced into a default or empty record, and no wrapping
`MalformedResponseError` exists in the code. -/
theorem c3_parse_error_propagates (content : String) :
    (∃ v, _call_llm_json content = .ok v ∧ json_loads content = .ok v) ∨
    _call_llm_json content = .error PyError.jsonDecodeError := by
  cases hj : json_loads content with
  | error e =>
    right
    have h1 : _call_llm_json content = .error e := hj
    rw [h1, json_loads_error_shape content e hj]
  | ok v =>
    left
    exact ⟨v, hj, rfl⟩

/-! ## Claim C4 -/

/-- A field slot that Python may call `.strip()` on: absent, or a string. -/
def isStrLike : Option Json → Bool
  | none => true
  | some (.str _) => true
  | some _ => false

/-- A field slot the comprehension `[s.strip() for s in v]` accepts:
absent, or a list whose elements are all strings. -/
def isStrListLike : Option Json → Bool
  | none => true
  | some (.arr xs) => xs.all fun j => match j with | .str _ => true | _ => false
  | some _ => false

/-- All seven JD keys hold values of the expected shape when present. -/
def jdWellTyped (fields : List (String × Json)) : Bool :=
  isStrLike (lookupLast fields "title") &&
  isStrLike (lookupLast fields "company") &&
  isStrLike (lookupLast fields "location") &&
  isStrListLike (lookupLast fields "required_skills") &&
  isStrListLike (lookupLast fields "nice_to_have_skills") &&
  isStrListLike (lookupLast fields "responsibilities") &&
  isStrListLike (lookupLast fields "keywords")

/-- All four resume keys hold values of the expected shape when present. -/
def resumeWellTyped (fields : List (String × Json)) : Bool :=
  isStrLike (lookupLast fields "name") &&
  isStrLike (lookupLast fields "headline") &&
  isStrListLike (lookupLast fields "skills") &&
  isStrListLike (lookupLast fields "tools")

/-- Binding a success in the `Except` monad applies the continuation. -/
theorem exceptBind_ok {α β ε : Type} (a : α) (f : α → Except ε β) :
    (Except.ok a >>= f) = f a := rfl

/-- Reading a key from a JSON object dict never fails. -/
theorem pyDictGet_obj (fields : List (String × Json)) (k : String) (dflt : Json) :
    pyDictGet (.obj fields) k dflt = .ok ((lookupLast fields k).getD dflt) := rfl

/-- A string-or-absent field is read totally: absent keys give the empty
string, present strings are stripped. -/
theorem strField_spec (fields : List (String × Json)) (k : String)
    (h : isStrLike (lookupLast fields k) = true) :
    ∃ s', (pyDictGet (.obj fields) k (.str "") >>= pyStripAttr) = .ok s' ∧
      (lookupLast fields k = none → s' = "") ∧
      (∀ s, lookupLast fields k = some (.str s) → s' = pyStrip s) := by
  rcases hv : lookupLast fields k with _ | j
  · refine ⟨"", ?_, fun _ => rfl, fun s hs => by cases hs⟩
    rw [pyDictGet_obj, hv]
    rfl
  · rw [hv] at h
    cases j with
    | str s =>
      refine ⟨pyStrip s, ?_, ?_, ?_⟩
      · rw [pyDictGet_obj, hv]
        rfl
      · intro hc
        cases hc
      · intro s₂ hs₂
        injection hs₂ with hj
        injection hj with hss
        rw [hss]
    | null => exact absurd h (by simp [isStrLike])
    | bool b => exact absurd h (by simp [isStrLike])
    | num v => exact absurd h (by simp [isStrLike])
    | arr xs => exact absurd h (by simp [isStrLike])
    | obj fs => exact absurd h (by simp [isStrLike])

/-- Stripping a list of strings succeeds elementwise. -/
theorem pyStripList_ok (xs : List Json)
    (h : (xs.all fun j => match j with | .str _ => true | _ => false) = true) :
    ∃ ss, pyStripList xs = .ok ss := by
  induction xs with
  | nil => exact ⟨[], rfl⟩
  | cons j rest ih =>
    rw [List.all_cons, Bool.and_eq_true] at h
    obtain ⟨ss, hss⟩ := ih h.2
    cases j with
    | str s =>
      refine ⟨pyStrip s :: ss, ?_⟩
      unfold pyStripList pyStripAttr
      rw [exceptBind_ok, hss]
      rfl
    | null => exact absurd h.1 (by simp)
    | bool b => exact absurd h.1 (by simp)
    | num v => exact absurd h.1 (by simp)
    | arr ys => exact absurd h.1 (by simp)
    | obj fs => exact absurd h.1 (by simp)

/-- A list-or-absent field is read totally: absent keys give the empty
list, present lists of strings are stripped elementwise. -/
theorem listField_spec (fields : List (String × Json)) (k : String)
    (h : isStrListLike (lookupLast fields k) = true) :
    ∃ l, (pyDictGet (.obj fields) k (.arr []) >>= stripComprehension) = .ok l ∧
      (lookupLast fields k = none → l = []) := by
  rcases hv : lookupLast fields k with _ | j
  · refine ⟨[], ?_, fun _ => rfl⟩
    rw [pyDictGet_obj, hv]
    rfl
  · rw [hv] at h
    cases j with
    | arr xs =>
      simp only [isStrListLike] at h
      obtain ⟨ss, hss⟩ := pyStripList_ok xs h
      refine ⟨ss, ?_, fun hc => by cases hc⟩
      rw [pyDictGet_obj, hv]
      show stripComprehension (.arr xs) = .ok ss
      unfold stripComprehension pyIter
      rw [exceptBind_ok]
      exact hss
    | null => exact absurd h (by simp [isStrListLike])
    | bool b => exact absurd h (by simp [isStrListLike])
    | num v => exact absurd h (by simp [isStrListLike])
    | str s => exact absurd h (by simp [isStrListLike])
    | obj fs => exact absurd h (by simp [isStrListLike])

/-- C4: on a well-typed JSON object neither extractor fails on an absent
expected key — every missing key defaults to the empty string or the empty
list, present string fields are stripped, and the record is produced. -/
theorem c4_missing_keys_default (jfields rfields : List (String × Json)) :
    (jdWellTyped jfields = true →
      ∃ jdi, _extract_jd_fields (.obj jfields) = .ok jdi ∧
        (lookupLast jfields "title" = none → jdi.title = "") ∧
        (lookupLast jfields "company" = none → jdi.company = "") ∧
        (lookupLast jfields "location" = none → jdi.location = "") ∧
        (lookupLast jfields "required_skills" = none → jdi.required_skills = []) ∧
        (lookupLast jfields "nice_to_have_skills" = none → jdi.nice_to_have_skills = []) ∧
        (lookupLast jfields "responsibilities" = none → jdi.responsibilities = []) ∧
        (lookupLast jfields "keywords" = none → jdi.keywords = []) ∧
        (∀ s, lookupLast jfields "title" = some (.str s) → jdi.title = pyStrip s) ∧
        (∀ s, lookupLast jfields "location" = some (.str s) → jdi.location = pyStrip s)) ∧
    (resumeWellTyped rfields = true →
      ∃ ri, _extract_resume_fields (.obj rfields) = .ok ri ∧
        (lookupLast rfields "name" = none → ri.name = "") ∧
        (lookupLast rfields "headline" = none → ri.headline = "") ∧
        (lookupLast rfields "skills" = none → ri.skills = []) ∧
        (lookupLast rfields "tools" = none → ri.tools = []) ∧
        (∀ s, lookupLast rfields "name" = some (.str s) → ri.name = pyStrip s)) := by
  constructor
  · intro h
    simp only [jdWellTyped, Bool.and_eq_true] at h
    obtain ⟨⟨⟨⟨⟨⟨h1, h2⟩, h3⟩, h4⟩, h5⟩, h6⟩, h7⟩ := h
    obtain ⟨ti, hti, htiN, htiS⟩ := strField_spec jfields "title" h1
    obtain ⟨ci, hci, hciN, _⟩ := strField_spec jfields "company" h2
    obtain ⟨li, hli, hliN, hliS⟩ := strField_spec jfields "location" h3
    obtain ⟨rsl, hrsl, hrslN⟩ := listField_spec jfields "required_skills" h4
    obtain ⟨nsl, hnsl, hnslN⟩ := listField_spec jfields "nice_to_have_skills" h5
    obtain ⟨rpl, hrpl, hrplN⟩ := listField_spec jfields "responsibilities" h6
    obtain ⟨kwl, hkwl, hkwlN⟩ := listField_spec jfields "keywords" h7
    refine ⟨⟨ti, ci, li, rsl, nsl, rpl, kwl⟩, ?_, htiN, hciN, hliN, hrslN, hnslN,
      hrplN, hkwlN, htiS, hliS⟩
    unfold _extract_jd_fields
    rw [hti, exceptBind_ok, hci, exceptBind_ok, hli, exceptBind_ok, hrsl,
        exceptBind_ok, hnsl, exceptBind_ok, hrpl, exceptBind_ok, hkwl, exceptBind_ok]
    rfl
  · intro h
    simp only [resumeWellTyped, Bool.and_eq_true] at h
    obtain ⟨⟨⟨h1, h2⟩, h3⟩, h4⟩ := h
    obtain ⟨nm, hnm, hnmN, hnmS⟩ := strField_spec rfields "name" h1
    obtain ⟨hl, hhl, hhlN, _⟩ := strField_spec rfields "headline" h2
    obtain ⟨sk, hsk, hskN⟩ := listField_spec rfields "skills" h3
    obtain ⟨tl, htl, htlN⟩ := listField_spec rfields "tools" h4
    refine ⟨⟨nm, hl, sk, tl⟩, ?_, hnmN, hhlN, hskN, htlN, hnmS⟩
    unfold _extract_resume_fields
    rw [hnm, exceptBind_ok, hhl, exceptBind_ok, hsk, exceptBind_ok, htl, exceptBind_ok]
    rfl

/-- C4 witness: a JD object that lacks `"location"` (holding only a padded
`"title"`) extracts to `location = ""` with the title trimmed, and the
empty resume object extracts to all defaults. -/
theorem c4_witness :
    (∃ jdi, _extract_jd_fields (.obj [("title", Json.str " Engineer ")]) = .ok jdi ∧
      jdi.location = "" ∧ jdi.title = pyStrip " Engineer ") ∧
    (∃ ri, _extract_resume_fields (.obj []) = .ok ri ∧ ri.name = "" ∧ ri.skills = []) := by
  obtain ⟨hjd, hres⟩ := c4_missing_keys_default [("title", Json.str " Engineer ")] []
  obtain ⟨jdi, hok, _, _, hloc, _, _, _, _, htitle, _⟩ := hjd rfl
  obtain ⟨ri, hok2, hname, _, hskills, _, _⟩ := hres rfl
  exact ⟨⟨jdi, hok, hloc rfl, htitle " Engineer " rfl⟩,
         ⟨ri, hok2, hname rfl, hskills rfl⟩⟩

/-! ## Claim C8 -/

/-- C8: a failure of the JD extraction aborts the run at once — the resume
and advice calls are never issued and the exception is the result; a
resume-extraction failure likewise aborts before the advice call; and an
advice failure aborts the whole run with no partial result. -/
theorem c8_failure_aborts_pipeline (jdC rC aC : String) :
    (∀ e, _extract_jd_info jdC = .error e →
      run_jobmatch_agent jdC rC aC = (.error e, [.jdExtract])) ∧
    (∀ jdi e, _extract_jd_info jdC = .ok jdi → _extract_resume_info rC = .error e →
      run_jobmatch_agent jdC rC aC = (.error e, [.jdExtract, .resumeExtract])) ∧
    (∀ jdi ri e, _extract_jd_info jdC = .ok jdi → _extract_resume_info rC = .ok ri →
      _generate_advice aC = .error e →
      run_jobmatch_agent jdC rC aC =
        (.error e, [.jdExtract, .resumeExtract, .advice])) := by
  refine ⟨fun e h => ?_, fun jdi e h1 h2 => ?_, fun jdi ri e h1 h2 h3 => ?_⟩
  · unfold run_jobmatch_agent
    rw [h]
  · unfold run_jobmatch_agent
    rw [h1, h2]
  · unfold run_jobmatch_agent
    rw [h1, h2, h3]

/-- C8 witness: a malformed body at any of the three stages aborts the run
with the parse error, and the later completion calls are not issued. -/
theorem c8_witness :
    run_jobmatch_agent "nope" "\x7b\x7d" "\x7b\x7d" =
      (.error .jsonDecodeError, [.jdExtract]) ∧
    run_jobmatch_agent "\x7b\x7d" "nope" "\x7b\x7d" =
      (.error .jsonDecodeError, [.jdExtract, .resumeExtract]) ∧
    run_jobmatch_agent "\x7b\x7d" "\x7b\x7d" "nope" =
      (.error .jsonDecodeError, [.jdExtract, .resumeExtract, .advice]) :=
  ⟨(c8_failure_aborts_pipeline "nope" "\x7b\x7d" "\x7b\x7d").1 _ rfl,
   (c8_failure_aborts_pipeline "\x7b\x7d" "nope" "\x7b\x7d").2.1 ⟨"", "", "", [], [], [], []⟩ _ rfl rfl,
   (c8_failure_aborts_pipeline "\x7b\x7d" "\x7b\x7d" "nope").2.2 ⟨"", "", "", [], [], [], []⟩
     ⟨"", "", [], []⟩ _ rfl rfl rfl⟩
